import Mathlib

/-!
Verification of the date-range aggregation core of `netlify/functions/server.js`
(an Express server that aggregates per-day API coverage and usage snapshots).

The JavaScript source is shallowly embedded as follows.

* Calendar dates: the server runs in the UTC civil calendar (`new Date("YYYY-MM-DD")`
  parses to UTC midnight, `toISOString` prints the UTC date, and `setDate(getDate()+1)`
  advances exactly one civil day there).  `Date` is a year/month/day triple,
  `nextDay` is the `setDate(getDate()+1)` step, and `toKeyString` is
  `toISOString().split("T")[0]`, i.e. zero-padded `YYYY-MM-DD` formatting.
  Parsing of the incoming query strings by `new Date(...)` is abstracted as an
  `Option Date` (`none` = the string does not parse to a valid date, the
  `isNaN(getTime())` case).
* JavaScript numbers are modelled by `JsNum`: an exact rational together with the
  `NaN` / `Infinity` / `-Infinity` values produced by division by zero
  (float rounding is abstracted; every concrete value appearing in the spec
  scenarios is exactly representable).
* Values stored in the `usage_count` / `total_clients` fields of usage records are
  modelled by `JsVal`: either an integer, or a value that is non-numeric under both
  `Number(...)` and `parseInt(..., 10)` (such as the string "N/A").
* The snapshot files `api_coverage_<day>.json` / `api_usage_<day>.json` are a
  `Store`: for each day key the coverage resource and the usage resource are each
  absent, present but malformed (`JSON.parse` throws), or present with parsed data.
  A parsed coverage object is an association list with distinct keys
  (JavaScript object keys); a parsed usage file is a list of usage records.
* Each Express handler becomes a function from the store and its query parameters
  to a `Resp` value: `ok` (the JSON payload of a 200 response), `badRequest`
  (the 400 "missing parameter" responses) or `internalError` (the generic 500
  response produced by the outer `catch`).  Query parameters are
  `Option`-wrapped: `none` models an absent (falsy) parameter.
-/

set_option maxHeartbeats 1600000

namespace ApiUsage

/-! ## Calendar dates (UTC civil calendar) -/

/-- A calendar date, as the year/month/day components of a JS `Date`
at UTC midnight. Months and days are 1-based. -/
structure Date where
  year : ℕ
  month : ℕ
  day : ℕ
deriving DecidableEq

/-- Gregorian leap-year rule. -/
def isLeap (y : ℕ) : Bool :=
  (y % 4 == 0 && y % 100 != 0) || y % 400 == 0

/-- Number of days of month `m` of year `y` (1 = January). -/
def daysInMonth (y m : ℕ) : ℕ :=
  match m with
  | 1 => 31
  | 2 => if isLeap y then 29 else 28
  | 3 => 31
  | 4 => 30
  | 5 => 31
  | 6 => 30
  | 7 => 31
  | 8 => 31
  | 9 => 30
  | 10 => 31
  | 11 => 30
  | 12 => 31
  | _ => 31

/-- Days of year `y` that precede month `m`. -/
def daysBeforeMonth (y m : ℕ) : ℕ :=
  let l : ℕ := if isLeap y then 1 else 0
  match m with
  | 1 => 0
  | 2 => 31
  | 3 => 59 + l
  | 4 => 90 + l
  | 5 => 120 + l
  | 6 => 151 + l
  | 7 => 181 + l
  | 8 => 212 + l
  | 9 => 243 + l
  | 10 => 273 + l
  | 11 => 304 + l
  | 12 => 334 + l
  | _ => 334 + l

/-- Days in the years `1, …, y-1` (proleptic Gregorian). -/
def daysBeforeYear (y : ℕ) : ℕ :=
  365 * (y - 1) + (y - 1) / 4 + (y - 1) / 400 - (y - 1) / 100

/-- Linear day number of a date; corresponds to the JS `Date` timestamp
(divided by 86 400 000), so date comparison of `Date` objects is comparison
of ordinals. -/
def toOrdinal (d : Date) : ℕ :=
  daysBeforeYear d.year + daysBeforeMonth d.year d.month + d.day

/-- The dates representable by a parsed `YYYY-MM-DD` string: the components form a
real calendar date whose `toISOString` prints with a 4-digit year. -/
def ValidDate (d : Date) : Prop :=
  1 ≤ d.year ∧ d.year ≤ 9999 ∧ 1 ≤ d.month ∧ d.month ≤ 12 ∧
    1 ≤ d.day ∧ d.day ≤ daysInMonth d.year d.month

instance (d : Date) : Decidable (ValidDate d) := by
  unfold ValidDate
  infer_instance

/-- `startDate.setDate(startDate.getDate() + 1)`: advance one civil day
(JS `Date` setters normalize month/year rollover). -/
def nextDay (d : Date) : Date :=
  if d.day < daysInMonth d.year d.month then ⟨d.year, d.month, d.day + 1⟩
  else if d.month < 12 then ⟨d.year, d.month + 1, 1⟩
  else ⟨d.year + 1, 1, 1⟩

/-- The `w` decimal digits of `k`, most significant first (leading zeros kept). -/
def digitsBE : ℕ → ℕ → List ℕ
  | 0, _ => []
  | w + 1, k => digitsBE w (k / 10) ++ [k % 10]

/-- Zero-padded `w`-character decimal rendering of `k`. -/
def padChars (w k : ℕ) : List Char :=
  (digitsBE w k).map Nat.digitChar

/-- `toISOString().split("T")[0]`: the `YYYY-MM-DD` day key of a date. -/
def toKeyString (d : Date) : String :=
  ⟨padChars 4 d.year ++ '-' :: padChars 2 d.month ++ '-' :: padChars 2 d.day⟩

/-- The `while (startDate <= endDate)` loop of `generateDateRange`: push the
current day key and advance one day.  The loop runs at most
`toOrdinal e + 1 - toOrdinal d` times (each iteration advances the ordinal by
one, see `toOrdinal_nextDay`); that bound is supplied as explicit fuel, which
never truncates the iteration (`rangeLoop_spec`). -/
def rangeLoop : ℕ → Date → Date → List String
  | 0, _, _ => []
  | fuel + 1, d, e =>
    if toOrdinal d ≤ toOrdinal e then toKeyString d :: rangeLoop fuel (nextDay d) e
    else []

/-- `generateDateRange(start, end)` (lines 13–26): if either endpoint fails to
parse (`isNaN(getTime())`), *returns* (does not throw) an `Error` object,
modelled as `.error`; otherwise returns the inclusive ascending list of
day keys. -/
def generateDateRange (startP endP : Option Date) : Except String (List String) :=
  match startP, endP with
  | some s, some e => .ok (rangeLoop (toOrdinal e + 1 - toOrdinal s) s e)
  | _, _ => .error "Invalid start or end date"

/-- The day keys of a successfully generated range. -/
def rangeKeys (s e : Date) : List String :=
  rangeLoop (toOrdinal e + 1 - toOrdinal s) s e

/-! ## JavaScript numbers -/

/-- A JS number: an exact rational, or one of the non-finite values that
arise from division by zero. -/
inductive JsNum where
  | num (q : ℚ)
  | nan
  | posInf
  | negInf
deriving DecidableEq

/-- JS `+` on numbers. -/
def jsAdd : JsNum → JsNum → JsNum
  | .num a, .num b => .num (a + b)
  | .nan, _ => .nan
  | _, .nan => .nan
  | .posInf, .negInf => .nan
  | .negInf, .posInf => .nan
  | .posInf, _ => .posInf
  | _, .posInf => .posInf
  | .negInf, _ => .negInf
  | _, .negInf => .negInf

/-- JS `/` on numbers (IEEE semantics; the negative-zero distinction is not
modelled, a rational `0` divisor behaves as `+0`). -/
def jsDiv : JsNum → JsNum → JsNum
  | .nan, _ => .nan
  | _, .nan => .nan
  | .num a, .num b =>
    if b = 0 then (if a = 0 then .nan else if 0 < a then .posInf else .negInf)
    else .num (a / b)
  | .posInf, .num b => if 0 ≤ b then .posInf else .negInf
  | .negInf, .num b => if 0 ≤ b then .negInf else .posInf
  | .num _, .posInf => .num 0
  | .num _, .negInf => .num 0
  | .posInf, .posInf => .nan
  | .posInf, .negInf => .nan
  | .negInf, .posInf => .nan
  | .negInf, .negInf => .nan

/-- JS `x * 100` (the only multiplication the source performs). -/
def jsMul100 : JsNum → JsNum
  | .num q => .num (q * 100)
  | .nan => .nan
  | .posInf => .posInf
  | .negInf => .negInf

/-- `x.toFixed(1)` (lines 207): round to one decimal, ties away from zero
upward (ECMA: "if there are two such n, pick the larger n").  The source
interpolates the result into the JSON payload; we model its numeric content
(`NaN`/`Infinity` print as themselves). -/
def toFixed1 : JsNum → JsNum
  | .num q => .num (((⌊q * 10 + 1 / 2⌋ : ℤ) : ℚ) / 10)
  | .nan => .nan
  | .posInf => .posInf
  | .negInf => .negInf

/-- A JSON value appearing in a `usage_count` / `total_clients` field:
an integer, or a value that is non-numeric under both `Number(...)` and
`parseInt(..., 10)` (e.g. the string "N/A"). -/
inductive JsVal where
  | intVal (n : ℤ)
  | nonNum
deriving DecidableEq

/-- `parseInt(v, 10) || 0` (line 54): non-numeric values fall back to `0`
(`parseInt` yields `NaN`, which is falsy); integers pass through
(including negative ones; a zero result is falsy but the fallback is also 0). -/
def parseIntOr0 : JsVal → ℤ
  | .intVal n => n
  | .nonNum => 0

/-- `Number(v)` (lines 132, 202, 203): integers pass through, non-numeric
values become `NaN` — there is no fallback. -/
def jsNumberOf : JsVal → JsNum
  | .intVal n => .num (n : ℚ)
  | .nonNum => .nan

/-! ## Snapshot data -/

/-- One coverage record (a value of the per-day coverage JSON object). -/
structure CoverageRecord where
  full_size : ℚ
  covered_lines : ℚ
  apidoc : String
deriving DecidableEq

/-- A parsed coverage file: a JS object keyed by API name, as an association
list in key insertion order (JS object keys are distinct). -/
abbrev CovMap := List (String × CoverageRecord)

/-- One record of a parsed usage file. -/
structure UsageRecord where
  api_name : String
  usage_count : JsVal
  total_clients : JsVal
deriving DecidableEq

/-- A parsed usage file: an ordered list of usage records (duplicates allowed). -/
abbrev UsageList := List UsageRecord

/-- State of one snapshot resource: the file does not exist, exists but
`JSON.parse` throws, or parses to data. -/
inductive CovFile where
  | absent
  | malformed
  | good (m : CovMap)
deriving DecidableEq

/-- State of one usage resource. -/
inductive UseFile where
  | absent
  | malformed
  | good (l : UsageList)
deriving DecidableEq

/-- The snapshot store: for each day key, the state of
`api_coverage_<day>.json` and of `api_usage_<day>.json`. -/
structure Store where
  cov : String → CovFile
  use : String → UseFile

/-- The coverage map a handler obtains for a day whose file is not malformed:
parsed data if present, `{}` if absent. -/
def covContent : CovFile → CovMap
  | .good m => m
  | _ => []

/-- The usage list a handler obtains: parsed data if present, `[]` if absent. -/
def useContent : UseFile → UsageList
  | .good l => l
  | _ => []

/-- `Object.keys` on a coverage object. -/
def objKeys (m : CovMap) : List String :=
  m.map (·.1)

/-- `cov[name]`: JS object property lookup (keys are distinct, so first
match suffices). -/
def objGet (m : CovMap) (name : String) : Option CoverageRecord :=
  (m.find? (fun p => p.1 == name)).map (·.2)

/-- `use.find(u => u.api_name === name)`: first usage record matching a name. -/
def findUsage (l : UsageList) (name : String) : Option UsageRecord :=
  l.find? (fun u => u.api_name == name)

/-- `(api.covered_lines / api.full_size) * 100` — the coverage percentage of
one record, with JS division semantics (a `full_size` of 0 yields
`NaN` or `±Infinity`, not an error). -/
def covPercent (r : CoverageRecord) : JsNum :=
  jsMul100 (jsDiv (.num r.covered_lines) (.num r.full_size))

/-! ## `calculateSummary` (lines 29–63) -/

/-- The summary payload `{ totalAPIs, avgCoverage, totalCalls }`. -/
structure SummaryOut where
  totalAPIs : ℕ
  avgCoverage : JsNum
  totalCalls : ℤ
deriving DecidableEq

/-- Insertion into the `allApiNames` `Set` (insertion order preserved,
duplicates ignored). -/
def addName (acc : List String) (n : String) : List String :=
  if acc.contains n then acc else acc ++ [n]

/-- Lines 34–37: the set union of key lists of all loaded coverage maps,
in first-insertion order. -/
def collectApiNames (allCoverage : List CovMap) : List String :=
  allCoverage.foldl (fun acc cov => (objKeys cov).foldl addName acc) []

/-- The body of the `for (const name of allApiNames)` loop (lines 46–55) run over
all names for one index `i`: accumulator is
`(totalCoverage, totalCalls, count)`.  `use` is `allUsage[i]`, which is
`undefined` (`none`) when `i` is out of bounds of `allUsage`. -/
def summaryDayStep (names : List String) (cov : CovMap) (use : Option UsageList)
    (acc : JsNum × ℤ × ℕ) : JsNum × ℤ × ℕ :=
  names.foldl
    (fun acc name =>
      let api := objGet cov name
      let usage := use.bind (fun l => findUsage l name)
      let acc1 : JsNum × ℤ × ℕ :=
        match api with
        | some r => (jsAdd acc.1 (covPercent r), acc.2.1, acc.2.2 + 1)
        | none => acc
      match usage with
      | some u => (acc1.1, acc1.2.1 + parseIntOr0 u.usage_count, acc1.2.2)
      | none => acc1)
    acc

/-- `calculateSummary(allCoverage, allUsage)` (lines 29–63).  Note the source
iterates `i` over the indices of `allCoverage` and pairs `allCoverage[i]`
with `allUsage[i]` positionally. -/
def calculateSummary (allCoverage : List CovMap) (allUsage : List UsageList) :
    SummaryOut :=
  if allCoverage.length = 0 then ⟨0, .num 0, 0⟩
  else
    let names := collectApiNames allCoverage
    let res :=
      (List.range allCoverage.length).foldl
        (fun acc i => summaryDayStep names (allCoverage.getD i []) (allUsage.get? i) acc)
        (.num 0, 0, 0)
    ⟨names.length, if res.2.2 ≠ 0 then jsDiv res.1 (.num (res.2.2 : ℚ)) else .num 0,
      res.2.1⟩

/-! ## HTTP handlers -/

/-- The observable responses of a handler: a 200 payload, a 400 missing-parameter
rejection, or the generic 500 `{"error":"Internal server error"}` produced by the
outer `catch`. -/
inductive Resp (α : Type) where
  | ok (v : α)
  | badRequest (msg : String)
  | internalError
deriving DecidableEq

/-- The per-day `try { … } catch` block of `/api/summary` (lines 83–92):
which coverage map / usage list the day contributes to `allCoverage` /
`allUsage`, and whether the catch ran (`console.warn` fired).  If the coverage
file is malformed, `JSON.parse` throws before the usage file is read, so a
valid usage file of the same day is dropped as well; if only the usage file is
malformed, the coverage map has already been pushed. -/
def loadDay (st : Store) (day : String) : Option CovMap × Option UsageList × Bool :=
  match st.cov day with
  | .malformed => (none, none, true)
  | .absent =>
    match st.use day with
    | .malformed => (none, none, true)
    | .absent => (none, none, false)
    | .good l => (none, some l, false)
  | .good m =>
    match st.use day with
    | .malformed => (some m, none, true)
    | .absent => (some m, none, false)
    | .good l => (some m, some l, false)

/-- The `for (const date of inRange)` load loop of `/api/summary` (lines 79–93):
conditional pushes onto `allCoverage` / `allUsage`, plus the list of days whose
catch block warned. -/
def loadRange (st : Store) (days : List String) :
    List CovMap × List UsageList × List String :=
  days.foldl
    (fun acc day =>
      let c := loadDay st day
      (acc.1 ++ c.1.toList, acc.2.1 ++ c.2.1.toList,
        acc.2.2 ++ (if c.2.2 then [day] else [])))
    ([], [], [])

/-- `/api/summary` (lines 66–107).  Returns the response and the list of
warned-about days (the `console.warn` diagnostics).  When `generateDateRange`
returns an `Error` object, `for (const date of inRange)` throws
(`Error` is not iterable), the outer `catch` catches it, and the response is
the generic 500 — no file is read. -/
def summaryHandler (st : Store) (startQ endQ : Option (Option Date)) :
    Resp SummaryOut × List String :=
  match startQ, endQ with
  | some sP, some eP =>
    (match generateDateRange sP eP with
     | .error _ => (.internalError, [])
     | .ok days =>
       let l := loadRange st days
       (.ok (calculateSummary l.1 l.2.1), l.2.2))
  | _, _ => (.badRequest "Missing start or end date", [])

/-- One `{ date, avgCoverage }` point of `/api/coverage-trends`. -/
structure TrendPoint where
  date : String
  avgCoverage : JsNum
deriving DecidableEq

/-- Lines 163–167: sum of the coverage percentages of a day's records. -/
def dayTotalCoverage (m : CovMap) : JsNum :=
  m.foldl (fun acc p => jsAdd acc (covPercent p.2)) (.num 0)

/-- One iteration of the `/api/coverage-trends` day loop (lines 154–173): skip a
day whose coverage file does not exist, *throw* on a malformed one (the
`JSON.parse` on line 158 is not wrapped in a per-day try/catch), skip a day
with an empty coverage object, otherwise push the day's average. -/
def trendsDayStep (st : Store) (acc : List TrendPoint) (date : String) :
    Except Unit (List TrendPoint) :=
  match st.cov date with
  | .absent => Except.ok acc
  | .malformed => Except.error ()
  | .good m =>
    if (objKeys m).length = 0 then Except.ok acc
    else Except.ok
      (acc ++ [⟨date, jsDiv (dayTotalCoverage m) (.num ((objKeys m).length : ℚ))⟩])

/-- The `for (const date of inRange)` loop of `/api/coverage-trends`. -/
def trendsOfDays (st : Store) (days : List String) : Except Unit (List TrendPoint) :=
  days.foldlM (trendsDayStep st) []

/-- `/api/coverage-trends` (lines 145–180). -/
def trendsHandler (st : Store) (startQ endQ : Option (Option Date)) :
    Resp (List TrendPoint) :=
  match startQ, endQ with
  | some sP, some eP =>
    (match generateDateRange sP eP with
     | .error _ => .internalError
     | .ok days =>
       match trendsOfDays st days with
       | .error _ => .internalError
       | .ok l => .ok l)
  | _, _ => .badRequest "Missing start or end date"

/-- One scatter point of `/api/coverage-usage`. -/
structure ScatterPoint where
  name : String
  coverage : JsNum
  usage : JsNum
deriving DecidableEq

/-- `/api/coverage-usage` (lines 111–142): single-day scatter data.  The
coverage file is read first, so a malformed coverage (or usage) file throws to
the outer catch — 500. -/
def scatterHandler (st : Store) (dateQ : Option String) : Resp (List ScatterPoint) :=
  match dateQ with
  | none => .badRequest "Missing date"
  | some date =>
    match st.cov date, st.use date with
    | .malformed, _ => .internalError
    | _, .malformed => .internalError
    | cf, uf =>
      let cov := covContent cf
      let use := useContent uf
      .ok (cov.map (fun p =>
        ⟨p.1, covPercent p.2,
          match findUsage use p.1 with
          | some u => jsNumberOf u.usage_count
          | none => .num 0⟩))

/-- One row of `/api/apis`. -/
structure ApiRow where
  name : String
  coverage : JsNum
  usage : JsNum
  totalClients : JsNum
  apidoc : String
  fullSize : ℚ
  coveredLines : ℚ
deriving DecidableEq

/-- The row built for one coverage entry by `/api/apis` (lines 199–214). -/
def apiRowOf (use : UsageList) (p : String × CoverageRecord) : ApiRow :=
  let usageItem := findUsage use p.1
  { name := p.1
    coverage := toFixed1 (covPercent p.2)
    usage := match usageItem with | some u => jsNumberOf u.usage_count | none => .num 0
    totalClients :=
      match usageItem with | some u => jsNumberOf u.total_clients | none => .num 0
    apidoc := p.2.apidoc
    fullSize := p.2.full_size
    coveredLines := p.2.covered_lines }

/-- `/api/apis` (lines 184–221): the per-API table for a single day. -/
def apisHandler (st : Store) (dateQ : Option String) : Resp (List ApiRow) :=
  match dateQ with
  | none => .badRequest "Missing date"
  | some date =>
    match st.cov date, st.use date with
    | .malformed, _ => .internalError
    | _, .malformed => .internalError
    | cf, uf => .ok ((covContent cf).map (apiRowOf (useContent uf)))

/-! ## Store helpers for the theorems -/

/-- Replace the coverage resource of one day. -/
def setCov (st : Store) (d : String) (f : CovFile) : Store :=
  ⟨fun k => if k = d then f else st.cov k, st.use⟩

/-- Replace the usage resource of one day. -/
def setUse (st : Store) (d : String) (f : UseFile) : Store :=
  ⟨st.cov, fun k => if k = d then f else st.use k⟩

/-- The coverage map pushed for a day by the summary load loop, if any. -/
def covPart (st : Store) (day : String) : Option CovMap :=
  (loadDay st day).1

/-- The usage list pushed for a day by the summary load loop, if any. -/
def usePart (st : Store) (day : String) : Option UsageList :=
  (loadDay st day).2.1

/-- Whether the summary load loop warns about a day. -/
def warnsOn (st : Store) (day : String) : Bool :=
  (loadDay st day).2.2

/-! ## Concrete stores used by scenario evaluations and witnesses -/

/-- The spec's Summary scenario: day `2024-01-01` has coverage
`{A: {fullSize:100, coveredLines:50}}` and usage `[{A, usageCount:10}]`;
day `2024-01-02` has no coverage file and usage `[{A, usageCount:5}]`. -/
def stScenario : Store :=
  ⟨fun d => if d = "2024-01-01" then .good [("A", ⟨100, 50, "docA"⟩)] else .absent,
    fun d =>
      if d = "2024-01-01" then .good [⟨"A", .intVal 10, .intVal 1⟩]
      else if d = "2024-01-02" then .good [⟨"A", .intVal 5, .intVal 1⟩]
      else .absent⟩

/-- A store whose coverage file for `2024-01-01` exists but is malformed, while
the same day's usage file is valid. -/
def stMalformed : Store :=
  ⟨fun d => if d = "2024-01-01" then .malformed else .absent,
    fun d => if d = "2024-01-01" then .good [⟨"A", .intVal 3, .intVal 1⟩] else .absent⟩

/-- The store with no snapshot files at all. -/
def stEmpty : Store :=
  ⟨fun _ => .absent, fun _ => .absent⟩

/-- A store whose usage record for API `A` on `2024-01-05` carries a
non-numeric `usage_count`. -/
def stNonNum : Store :=
  ⟨fun d => if d = "2024-01-05" then .good [("A", ⟨100, 50, "docA"⟩)] else .absent,
    fun d => if d = "2024-01-05" then .good [⟨"A", .nonNum, .intVal 3⟩] else .absent⟩

/-- A store whose coverage record for API `Z` on `2024-01-07` has
`full_size = 0` (the division edge case), next to a normal record. -/
def stZeroSize : Store :=
  ⟨fun d => if d = "2024-01-07" then
      .good [("Z", ⟨0, 0, "docZ"⟩), ("A", ⟨100, 50, "docA"⟩)] else .absent,
    fun d => if d = "2024-01-07" then .good [⟨"A", .intVal 4, .intVal 2⟩] else .absent⟩

/-! ## Infrastructure lemmas -/

theorem loadRange_go (st : Store) (days : List String) (a : List CovMap)
    (b : List UsageList) (w : List String) :
    days.foldl
      (fun acc day =>
        let c := loadDay st day
        (acc.1 ++ c.1.toList, acc.2.1 ++ c.2.1.toList,
          acc.2.2 ++ (if c.2.2 then [day] else [])))
      (a, b, w) =
      (a ++ days.filterMap (covPart st), b ++ days.filterMap (usePart st),
        w ++ days.filter (fun d => warnsOn st d)) := by
  induction days generalizing a b w with
  | nil => simp
  | cons d t ih =>
    simp only [List.foldl_cons, List.filterMap_cons, List.filter_cons]
    rw [ih]
    rcases h : loadDay st d with ⟨c, u, warn⟩
    simp only [covPart, usePart, warnsOn, h]
    cases c <;> cases u <;> cases warn <;> simp

theorem loadRange_eq (st : Store) (days : List String) :
    loadRange st days =
      (days.filterMap (covPart st), days.filterMap (usePart st),
        days.filter (fun d => warnsOn st d)) := by
  simpa using loadRange_go st days [] [] []

theorem calculateSummary_nil (allUsage : List UsageList) :
    calculateSummary [] allUsage = ⟨0, .num 0, 0⟩ := rfl

theorem rangeKeys_of_lt (s e : Date) (h : toOrdinal e < toOrdinal s) :
    rangeKeys s e = [] := by
  unfold rangeKeys
  have h0 : toOrdinal e + 1 - toOrdinal s = 0 := by omega
  rw [h0]
  rfl


/-- The trend point `/api/coverage-trends` would emit for one day, if any:
none for an absent coverage file or an empty coverage object. -/
def trendPointOf (st : Store) (day : String) : Option TrendPoint :=
  let m := covContent (st.cov day)
  if (objKeys m).length = 0 then none
  else some ⟨day, jsDiv (dayTotalCoverage m) (.num ((objKeys m).length : ℚ))⟩

theorem trendsOfDays_go_eq (st : Store) (days : List String)
    (h : ∀ d ∈ days, st.cov d ≠ .malformed) (acc : List TrendPoint) :
    days.foldlM (trendsDayStep st) acc =
      Except.ok (acc ++ days.filterMap (trendPointOf st)) := by
  induction days generalizing acc with
  | nil => simp; rfl
  | cons d t ih =>
    rw [List.foldlM_cons, List.filterMap_cons]
    have ht : ∀ x ∈ t, st.cov x ≠ .malformed := fun x hx => h x (by simp [hx])
    cases hc : st.cov d with
    | malformed => exact absurd hc (h d (by simp))
    | absent =>
      have hp : trendPointOf st d = none := by simp [trendPointOf, hc, covContent, objKeys]
      have hs : trendsDayStep st acc d = Except.ok acc := by simp [trendsDayStep, hc]
      rw [hp, hs]
      exact ih ht acc
    | good m =>
      by_cases hm : (objKeys m).length = 0
      · have hp : trendPointOf st d = none := by simp [trendPointOf, hc, covContent, hm]
        have hs : trendsDayStep st acc d = Except.ok acc := by simp [trendsDayStep, hc, hm]
        rw [hp, hs]
        exact ih ht acc
      · have hp : trendPointOf st d =
            some ⟨d, jsDiv (dayTotalCoverage m) (.num ((objKeys m).length : ℚ))⟩ := by
          simp [trendPointOf, hc, covContent, hm]
        have hs : trendsDayStep st acc d = Except.ok
            (acc ++ [⟨d, jsDiv (dayTotalCoverage m) (.num ((objKeys m).length : ℚ))⟩]) := by
          simp [trendsDayStep, hc, hm]
        rw [hp, hs]
        have := ih ht
          (acc ++ [⟨d, jsDiv (dayTotalCoverage m) (.num ((objKeys m).length : ℚ))⟩])
        simpa using this

theorem trendsOfDays_eq (st : Store) (days : List String)
    (h : ∀ d ∈ days, st.cov d ≠ .malformed) :
    trendsOfDays st days = Except.ok (days.filterMap (trendPointOf st)) := by
  simpa using trendsOfDays_go_eq st days h []

theorem trendsOfDays_ok (st : Store) (days : List String)
    (h : ∀ d ∈ days, st.cov d ≠ .malformed) :
    ∃ l, trendsOfDays st days = Except.ok l :=
  ⟨_, trendsOfDays_eq st days h⟩

theorem trendsOfDays_go_error (st : Store) (days : List String) (d : String)
    (hd : d ∈ days) (hm : st.cov d = .malformed) (acc : List TrendPoint) :
    days.foldlM (trendsDayStep st) acc = Except.error () := by
  induction days generalizing acc with
  | nil => cases hd
  | cons x t ih =>
    rw [List.foldlM_cons]
    cases hx : st.cov x with
    | malformed =>
      have hs : trendsDayStep st acc x = Except.error () := by simp [trendsDayStep, hx]
      rw [hs]
      rfl
    | absent =>
      rcases List.mem_cons.mp hd with rfl | hdt
      · simp [hx] at hm
      · have hs : trendsDayStep st acc x = Except.ok acc := by simp [trendsDayStep, hx]
        rw [hs]
        exact ih hdt acc
    | good m =>
      rcases List.mem_cons.mp hd with rfl | hdt
      · simp [hx] at hm
      · by_cases h0 : (objKeys m).length = 0
        · have hs : trendsDayStep st acc x = Except.ok acc := by
            simp [trendsDayStep, hx, h0]
          rw [hs]
          exact ih hdt acc
        · have hs : trendsDayStep st acc x = Except.ok
              (acc ++ [⟨x, jsDiv (dayTotalCoverage m) (.num ((objKeys m).length : ℚ))⟩]) := by
            simp [trendsDayStep, hx, h0]
          rw [hs]
          exact ih hdt _

theorem loadDay_congr (st st2 : Store) (k : String) (h1 : st.cov k = st2.cov k)
    (h2 : st.use k = st2.use k) : loadDay st k = loadDay st2 k := by
  unfold loadDay
  rw [h1, h2]

theorem filterMap_congr_mem {α β : Type} (f g : α → Option β) (l : List α)
    (h : ∀ a ∈ l, f a = g a) : l.filterMap f = l.filterMap g := by
  induction l with
  | nil => rfl
  | cons x xs ih =>
    simp only [List.filterMap_cons, h x (by simp)]
    cases g x <;> simp [ih fun a ha => h a (by simp [ha])]

theorem summaryHandler_fst (st : Store) (s e : Date) :
    (summaryHandler st (some (some s)) (some (some e))).1 =
      .ok (calculateSummary ((rangeKeys s e).filterMap (covPart st))
        ((rangeKeys s e).filterMap (usePart st))) := by
  have hgen : generateDateRange (some s) (some e) = .ok (rangeKeys s e) := rfl
  simp only [summaryHandler, hgen, loadRange_eq]

theorem summaryHandler_snd (st : Store) (s e : Date) :
    (summaryHandler st (some (some s)) (some (some e))).2 =
      (rangeKeys s e).filter (fun d => warnsOn st d) := by
  have hgen : generateDateRange (some s) (some e) = .ok (rangeKeys s e) := rfl
  simp only [summaryHandler, hgen, loadRange_eq]

theorem scatterHandler_abort (st : Store) (d : String)
    (h : st.cov d = .malformed ∨ st.use d = .malformed) :
    scatterHandler st (some d) = .internalError := by
  rcases h with h | h
  · simp only [scatterHandler, h]
  · cases hc : st.cov d <;> simp only [scatterHandler, hc, h]

theorem apisHandler_abort (st : Store) (d : String)
    (h : st.cov d = .malformed ∨ st.use d = .malformed) :
    apisHandler st (some d) = .internalError := by
  rcases h with h | h
  · simp only [apisHandler, h]
  · cases hc : st.cov d <;> simp only [apisHandler, hc, h]

/-! ## Claim theorems -/

/-- C9: Summary over a range in which every day is missing both the coverage and
usage resources returns exactly `{ totalAPIs: 0, avgCoverage: 0, totalCalls: 0 }`;
the same zero-valued summary is returned when the range expands to zero days
(start > end), and in that case expand returns an empty sequence, not an error. -/
theorem c9_all_missing_and_empty_range :
    (∀ (st : Store) (s e : Date),
      (∀ d ∈ rangeKeys s e, st.cov d = .absent ∧ st.use d = .absent) →
      summaryHandler st (some (some s)) (some (some e)) = (.ok ⟨0, .num 0, 0⟩, [])) ∧
    (∀ s e : Date, toOrdinal e < toOrdinal s →
      generateDateRange (some s) (some e) = .ok [] ∧
      ∀ st : Store,
        summaryHandler st (some (some s)) (some (some e)) = (.ok ⟨0, .num 0, 0⟩, [])) := by
  constructor
  · intro st s e h
    have hgen : generateDateRange (some s) (some e) = .ok (rangeKeys s e) := rfl
    simp only [summaryHandler, hgen, loadRange_eq]
    have hc : (rangeKeys s e).filterMap (covPart st) = [] := by
      rw [List.filterMap_eq_nil_iff]
      intro d hd
      simp [covPart, loadDay, (h d hd).1, (h d hd).2]
    have hw : (rangeKeys s e).filter (fun d => warnsOn st d) = [] := by
      rw [List.filter_eq_nil_iff]
      intro d hd
      simp [warnsOn, loadDay, (h d hd).1, (h d hd).2]
    rw [hc, hw]
    simp [calculateSummary_nil]
  · intro s e h
    have hk : rangeKeys s e = [] := rangeKeys_of_lt s e h
    have hgen : generateDateRange (some s) (some e) = .ok (rangeKeys s e) := rfl
    refine ⟨by rw [hgen, hk], fun st => ?_⟩
    simp only [summaryHandler, hgen, hk, loadRange_eq]
    simp [calculateSummary_nil]

/-- C9 witness: the empty-range part instantiated on concrete dates and a store
holding usage data on the start day. -/
theorem c9_all_missing_and_empty_range_witness :
    generateDateRange (some ⟨2024, 1, 5⟩) (some ⟨2024, 1, 3⟩) = .ok [] ∧
    summaryHandler ⟨fun _ => .absent, fun _ => .absent⟩
        (some (some ⟨2024, 1, 5⟩)) (some (some ⟨2024, 1, 3⟩)) =
      (.ok ⟨0, .num 0, 0⟩, []) := by
  have h := c9_all_missing_and_empty_range.2 ⟨2024, 1, 5⟩ ⟨2024, 1, 3⟩ (by decide)
  exact ⟨h.1, h.2 _⟩

/-- C10 (implicit): whenever no coverage resource is successfully loaded for any
day of the range, Summary returns `{ totalAPIs: 0, avgCoverage: 0, totalCalls: 0 }`
unconditionally — usage resources present in the range, even with positive usage
counts, contribute nothing to totalCalls in that case. -/
theorem c10_no_coverage_forces_zero_summary (st : Store) (s e : Date)
    (h : ∀ d ∈ rangeKeys s e, st.cov d = .absent ∨ st.cov d = .malformed) :
    (summaryHandler st (some (some s)) (some (some e))).1 = .ok ⟨0, .num 0, 0⟩ := by
  have hgen : generateDateRange (some s) (some e) = .ok (rangeKeys s e) := rfl
  simp only [summaryHandler, hgen, loadRange_eq]
  have hc : (rangeKeys s e).filterMap (covPart st) = [] := by
    rw [List.filterMap_eq_nil_iff]
    intro d hd
    rcases h d hd with h1 | h1
    · cases h2 : st.use d <;> simp [covPart, loadDay, h1, h2]
    · simp [covPart, loadDay, h1]
  rw [hc]
  simp [calculateSummary_nil]

/-- C10 witness: a one-day range whose coverage file is absent but whose usage
file holds a positive count still yields the all-zero summary. -/
theorem c10_no_coverage_forces_zero_summary_witness :
    (summaryHandler
        ⟨fun _ => .absent,
          fun d => if d = "2024-01-01" then
            .good [⟨"A", .intVal 7, .intVal 2⟩] else .absent⟩
        (some (some ⟨2024, 1, 1⟩)) (some (some ⟨2024, 1, 1⟩))).1 =
      .ok ⟨0, .num 0, 0⟩ :=
  c10_no_coverage_forces_zero_summary _ ⟨2024, 1, 1⟩ ⟨2024, 1, 1⟩ (by decide)

/-- C1 (code bug): on the spec's Summary scenario the code returns
`totalCalls = 10`, not the specified 15.  `allCoverage` and `allUsage` are
filled by conditional pushes, so on day 2 (no coverage file) the usage list is
appended at index 1 while `allCoverage` stays at length 1; the summation loop
runs `i` over the indices of `allCoverage` only and pairs `allUsage[i]`
positionally, so day 2's usage count 5 is never read.  `totalAPIs` and
`avgCoverage` match the spec. -/
theorem c1_scenario_total_calls_is_10 :
    summaryHandler stScenario (some (some ⟨2024, 1, 1⟩)) (some (some ⟨2024, 1, 2⟩)) =
      (.ok ⟨1, .num 50, 10⟩, []) := by
  have hgen : generateDateRange (some (⟨2024, 1, 1⟩ : Date)) (some ⟨2024, 1, 2⟩) =
      .ok ["2024-01-01", "2024-01-02"] := rfl
  simp only [summaryHandler, hgen]
  rw [loadRange_eq]
  simp +decide [stScenario, covPart, usePart, warnsOn, loadDay, calculateSummary,
    collectApiNames, objKeys, addName, summaryDayStep, objGet, findUsage,
    parseIntOr0, List.range_succ, List.find?, List.filterMap_cons, List.filter_cons]
  norm_num [covPercent, jsMul100, jsDiv, jsAdd]

/-- C4: for every coverage record with zero total size (`full_size == 0`), every
aggregation operation that computes its coverage percentage (Summary,
CoverageUsage, CoverageTrends, ApiTable) completes without crashing the
computation: division by zero yields `NaN`/`Infinity` values, never an
exception, so each handler still produces a 200 payload (the trends /
single-day hypotheses only exclude malformed files, whose aborts are unrelated
to the division edge case). -/
theorem c4_zero_full_size_never_crashes (st : Store) (s e : Date) (d : String)
    (m : CovMap) (hcov : st.cov d = .good m) (_hz : ∃ p ∈ m, p.2.full_size = 0) :
    (∃ v w, summaryHandler st (some (some s)) (some (some e)) = (.ok v, w)) ∧
    ((∀ k ∈ rangeKeys s e, st.cov k ≠ .malformed) →
      ∃ v, trendsHandler st (some (some s)) (some (some e)) = .ok v) ∧
    (st.use d ≠ .malformed →
      (∃ v, scatterHandler st (some d) = .ok v) ∧
      ∃ v, apisHandler st (some d) = .ok v) := by
  refine ⟨⟨_, _, rfl⟩, fun ht => ?_, fun hu => ?_⟩
  · have hgen : generateDateRange (some s) (some e) = .ok (rangeKeys s e) := rfl
    obtain ⟨l, hl⟩ := trendsOfDays_ok st (rangeKeys s e) ht
    simp only [trendsHandler, hgen, hl]
    exact ⟨l, rfl⟩
  · cases hus : st.use d with
    | malformed => exact absurd hus hu
    | absent =>
      refine ⟨?_, ?_⟩
      · simp only [scatterHandler, hcov, hus]
        exact ⟨_, rfl⟩
      · simp only [apisHandler, hcov, hus]
        exact ⟨_, rfl⟩
    | good l =>
      refine ⟨?_, ?_⟩
      · simp only [scatterHandler, hcov, hus]
        exact ⟨_, rfl⟩
      · simp only [apisHandler, hcov, hus]
        exact ⟨_, rfl⟩

/-- C4 witness: a day whose coverage object contains a `full_size = 0` record;
all four operations answer 200. -/
theorem c4_zero_full_size_never_crashes_witness :
    (∃ v w, summaryHandler stZeroSize (some (some ⟨2024, 1, 7⟩))
        (some (some ⟨2024, 1, 7⟩)) = (.ok v, w)) ∧
    (∃ v, trendsHandler stZeroSize (some (some ⟨2024, 1, 7⟩))
        (some (some ⟨2024, 1, 7⟩)) = .ok v) ∧
    (∃ v, scatterHandler stZeroSize (some "2024-01-07") = .ok v) ∧
    (∃ v, apisHandler stZeroSize (some "2024-01-07") = .ok v) := by
  have h := c4_zero_full_size_never_crashes stZeroSize ⟨2024, 1, 7⟩ ⟨2024, 1, 7⟩
    "2024-01-07" [("Z", ⟨0, 0, "docZ"⟩), ("A", ⟨100, 50, "docA"⟩)]
    (by simp +decide [stZeroSize]) ⟨("Z", ⟨0, 0, "docZ"⟩), by simp, rfl⟩
  have hsc := h.2.2 (by simp +decide [stZeroSize])
  exact ⟨h.1, h.2.1 (by decide), hsc.1, hsc.2⟩

/-- C7: for every range (with loadable coverage files), CoverageTrends emits one
TrendPoint — the date plus the mean of that day's per-API coverage
percentages — per day whose coverage map is non-empty, and never includes a day
whose coverage map is empty or absent (`covContent` is `[]` for an absent
file), even when that day has a non-empty usage list: the handler never reads
the usage store at all (second conjunct), and omitted days are simply dropped
by the `filterMap`, not zero-filled. -/
theorem c7_trends_skip_empty_days (st : Store) (s e : Date)
    (h : ∀ d ∈ rangeKeys s e, st.cov d ≠ .malformed) :
    trendsHandler st (some (some s)) (some (some e)) =
      .ok ((rangeKeys s e).filterMap (trendPointOf st)) ∧
    (∀ day : String, trendPointOf st day =
      (if (objKeys (covContent (st.cov day))).length = 0 then none
       else some ⟨day, jsDiv (dayTotalCoverage (covContent (st.cov day)))
          (.num ((objKeys (covContent (st.cov day))).length : ℚ))⟩)) ∧
    ∀ use2 : String → UseFile,
      trendsHandler ⟨st.cov, use2⟩ (some (some s)) (some (some e)) =
        trendsHandler st (some (some s)) (some (some e)) := by
  refine ⟨?_, fun day => rfl, fun use2 => rfl⟩
  have hgen : generateDateRange (some s) (some e) = .ok (rangeKeys s e) := rfl
  simp only [trendsHandler, hgen, trendsOfDays_eq st (rangeKeys s e) h]

/-- C7 witness: on the scenario store, day 1 (non-empty coverage) yields a trend
point and day 2 (absent coverage, non-empty usage) is omitted. -/
theorem c7_trends_skip_empty_days_witness :
    trendsHandler stScenario (some (some ⟨2024, 1, 1⟩)) (some (some ⟨2024, 1, 2⟩)) =
      .ok (["2024-01-01", "2024-01-02"].filterMap (trendPointOf stScenario)) ∧
    ["2024-01-01", "2024-01-02"].filterMap (trendPointOf stScenario) =
      [⟨"2024-01-01", .num 50⟩] := by
  have h := (c7_trends_skip_empty_days stScenario ⟨2024, 1, 1⟩ ⟨2024, 1, 2⟩
    (by decide)).1
  have hk : rangeKeys ⟨2024, 1, 1⟩ ⟨2024, 1, 2⟩ = ["2024-01-01", "2024-01-02"] := rfl
  refine ⟨by rw [hk] at h; exact h, ?_⟩
  simp +decide [stScenario, trendPointOf, covContent, objKeys, dayTotalCoverage]
  norm_num [covPercent, jsMul100, jsDiv, jsAdd]

/-- C8: for every single-day ApiTable query (on loadable files, with the
distinct keys of a parsed JS object), the result has exactly one row per
distinct API name in that day's coverage map, regardless of the usage list;
each row carries name, coveragePercent rounded to 1 decimal, usageCount,
totalClients, apidoc, fullSize and coveredLines, and the usage fields are 0
when no usage record matches the row's name. -/
theorem c8_api_table_rows (st : Store) (d : String)
    (hcovM : st.cov d ≠ .malformed) (huseM : st.use d ≠ .malformed)
    (hnd : (objKeys (covContent (st.cov d))).Nodup) :
    ∃ rows, apisHandler st (some d) = .ok rows ∧
      rows.length = (objKeys (covContent (st.cov d))).dedup.length ∧
      rows.map (fun r => r.name) = objKeys (covContent (st.cov d)) ∧
      (∀ p ∈ covContent (st.cov d),
        (⟨p.1, toFixed1 (covPercent p.2),
          (match findUsage (useContent (st.use d)) p.1 with
            | some u => jsNumberOf u.usage_count | none => .num 0),
          (match findUsage (useContent (st.use d)) p.1 with
            | some u => jsNumberOf u.total_clients | none => .num 0),
          p.2.apidoc, p.2.full_size, p.2.covered_lines⟩ : ApiRow) ∈ rows) ∧
      (∀ r ∈ rows, (∀ u ∈ useContent (st.use d), u.api_name ≠ r.name) →
        r.usage = .num 0 ∧ r.totalClients = .num 0) := by
  have hresp : apisHandler st (some d) =
      .ok ((covContent (st.cov d)).map (apiRowOf (useContent (st.use d)))) := by
    cases hc : st.cov d with
    | malformed => exact absurd hc hcovM
    | absent =>
      cases hu : st.use d with
      | malformed => exact absurd hu huseM
      | absent => simp only [apisHandler, hc, hu]
      | good l => simp only [apisHandler, hc, hu]
    | good m =>
      cases hu : st.use d with
      | malformed => exact absurd hu huseM
      | absent => simp only [apisHandler, hc, hu]
      | good l => simp only [apisHandler, hc, hu]
  refine ⟨_, hresp, ?_, ?_, ?_, ?_⟩
  · rw [hnd.dedup]
    simp [objKeys]
  · simp only [List.map_map]
    simp [objKeys, apiRowOf]
  · intro p hp
    have := List.mem_map_of_mem (apiRowOf (useContent (st.use d))) hp
    simpa [apiRowOf] using this
  · intro r hr hnone
    obtain ⟨p, hp, hpr⟩ := List.mem_map.mp hr
    have hfind : findUsage (useContent (st.use d)) p.1 = none := by
      rw [findUsage, List.find?_eq_none]
      intro u hu
      have : u.api_name ≠ r.name := hnone u hu
      simp only [← hpr, apiRowOf] at this ⊢
      exact fun hbe => this (by simpa using hbe)
    rw [← hpr]
    simp [apiRowOf, hfind]

/-- C8 witness: on `stZeroSize` the day `2024-01-07` yields one row per coverage
key (two rows, though the usage list has one record). -/
theorem c8_api_table_rows_witness :
    ∃ rows, apisHandler stZeroSize (some "2024-01-07") = .ok rows ∧
      rows.length = 2 := by
  obtain ⟨rows, h1, h2, -⟩ := c8_api_table_rows stZeroSize "2024-01-07"
    (by simp +decide [stZeroSize]) (by simp +decide [stZeroSize])
    (by simp +decide [stZeroSize, covContent, objKeys])
  refine ⟨rows, h1, ?_⟩
  rw [h2]
  simp +decide [stZeroSize, covContent, objKeys]

/-- C2 counterexample: a malformed coverage resource on the first day of a
5-day range makes CoverageTrends answer the generic 500 — the request aborts,
contradicting the claim that the recovery holds for all four operations.
CoverageUsage aborts on the same store. -/
theorem c2_counterexample_malformed_aborts :
    trendsHandler stMalformed (some (some ⟨2024, 1, 1⟩)) (some (some ⟨2024, 1, 5⟩)) =
      .internalError ∧
    scatterHandler stMalformed (some "2024-01-01") = .internalError := by
  constructor
  · have hgen : generateDateRange (some (⟨2024, 1, 1⟩ : Date)) (some ⟨2024, 1, 5⟩) =
        .ok (rangeKeys ⟨2024, 1, 1⟩ ⟨2024, 1, 5⟩) := rfl
    have h2 : trendsOfDays stMalformed (rangeKeys ⟨2024, 1, 1⟩ ⟨2024, 1, 5⟩) =
        Except.error () :=
      trendsOfDays_go_error stMalformed _ "2024-01-01" (by decide) (by decide) []
    simp only [trendsHandler, hgen, h2]
  · exact scatterHandler_abort stMalformed "2024-01-01" (.inl (by decide))

/-- C2 amended: the treat-as-absent recovery holds for Summary only.  There a
malformed resource never aborts the request (conjunct 1); a malformed coverage
file drops both of that day's resources — equivalent to both being absent
(conjunct 2); a malformed usage file next to a readable coverage file drops the
usage list only (conjunct 3); and the day is reported on the warning channel
(conjunct 4).  In CoverageTrends a malformed coverage file of any day in the
range, and in CoverageUsage / ApiTable a malformed coverage or usage file of
the queried day, aborts the whole request with the generic 500
(conjuncts 5–6). -/
theorem c2_amended_malformed_recovery :
    (∀ (st : Store) (s e : Date), ∃ v w,
        summaryHandler st (some (some s)) (some (some e)) = (.ok v, w)) ∧
    (∀ (st : Store) (d : String) (s e : Date),
        st.cov d = .malformed →
        (summaryHandler st (some (some s)) (some (some e))).1 =
          (summaryHandler (setUse (setCov st d .absent) d .absent)
            (some (some s)) (some (some e))).1) ∧
    (∀ (st : Store) (d : String) (s e : Date),
        st.cov d ≠ .malformed → st.use d = .malformed →
        (summaryHandler st (some (some s)) (some (some e))).1 =
          (summaryHandler (setUse st d .absent)
            (some (some s)) (some (some e))).1) ∧
    (∀ (st : Store) (d : String) (s e : Date),
        (st.cov d = .malformed ∨ st.use d = .malformed) → d ∈ rangeKeys s e →
        d ∈ (summaryHandler st (some (some s)) (some (some e))).2) ∧
    (∀ (st : Store) (d : String) (s e : Date),
        st.cov d = .malformed → d ∈ rangeKeys s e →
        trendsHandler st (some (some s)) (some (some e)) = .internalError) ∧
    (∀ (st : Store) (d : String),
        st.cov d = .malformed ∨ st.use d = .malformed →
        scatterHandler st (some d) = .internalError ∧
        apisHandler st (some d) = .internalError) := by
  refine ⟨fun st s e => ⟨_, _, rfl⟩, ?_, ?_, ?_, ?_, ?_⟩
  · intro st d s e hm
    rw [summaryHandler_fst, summaryHandler_fst]
    rw [filterMap_congr_mem (covPart st)
        (covPart (setUse (setCov st d .absent) d .absent)) _ ?_,
      filterMap_congr_mem (usePart st)
        (usePart (setUse (setCov st d .absent) d .absent)) _ ?_]
    · intro k _
      by_cases hkd : k = d
      · subst hkd
        simp [usePart, loadDay, hm, setCov, setUse]
      · have hld := loadDay_congr st (setUse (setCov st d .absent) d .absent) k
          (by simp [setCov, setUse, hkd]) (by simp [setCov, setUse, hkd])
        simp [usePart, hld]
    · intro k _
      by_cases hkd : k = d
      · subst hkd
        simp [covPart, loadDay, hm, setCov, setUse]
      · have hld := loadDay_congr st (setUse (setCov st d .absent) d .absent) k
          (by simp [setCov, setUse, hkd]) (by simp [setCov, setUse, hkd])
        simp [covPart, hld]
  · intro st d s e hcm hum
    rw [summaryHandler_fst, summaryHandler_fst]
    rw [filterMap_congr_mem (covPart st) (covPart (setUse st d .absent)) _ ?_,
      filterMap_congr_mem (usePart st) (usePart (setUse st d .absent)) _ ?_]
    · intro k _
      by_cases hkd : k = d
      · subst hkd
        cases hc : st.cov k with
        | malformed => exact absurd hc hcm
        | absent => simp [usePart, loadDay, hc, hum, setUse]
        | good m => simp [usePart, loadDay, hc, hum, setUse]
      · have hld := loadDay_congr st (setUse st d .absent) k rfl
          (by simp [setUse, hkd])
        simp [usePart, hld]
    · intro k _
      by_cases hkd : k = d
      · subst hkd
        cases hc : st.cov k with
        | malformed => exact absurd hc hcm
        | absent => simp [covPart, loadDay, hc, hum, setUse]
        | good m => simp [covPart, loadDay, hc, hum, setUse]
      · have hld := loadDay_congr st (setUse st d .absent) k rfl
          (by simp [setUse, hkd])
        simp [covPart, hld]
  · intro st d s e hm hd
    rw [summaryHandler_snd, List.mem_filter]
    refine ⟨hd, ?_⟩
    rcases hm with h | h
    · simp [warnsOn, loadDay, h]
    · cases hc : st.cov d <;> simp [warnsOn, loadDay, hc, h]
  · intro st d s e hm hd
    have hgen : generateDateRange (some s) (some e) = .ok (rangeKeys s e) := rfl
    have h2 : trendsOfDays st (rangeKeys s e) = Except.error () :=
      trendsOfDays_go_error st _ d hd hm []
    simp only [trendsHandler, hgen, h2]
  · intro st d hm
    exact ⟨scatterHandler_abort st d hm, apisHandler_abort st d hm⟩

/-- C2 amended witness: all six conjuncts instantiated on the malformed store
and the one-day range `2024-01-01`. -/
theorem c2_amended_malformed_recovery_witness :
    (∃ v w, summaryHandler stMalformed (some (some ⟨2024, 1, 1⟩))
        (some (some ⟨2024, 1, 1⟩)) = (.ok v, w)) ∧
    (summaryHandler stMalformed (some (some ⟨2024, 1, 1⟩))
        (some (some ⟨2024, 1, 1⟩))).1 =
      (summaryHandler (setUse (setCov stMalformed "2024-01-01" .absent)
          "2024-01-01" .absent) (some (some ⟨2024, 1, 1⟩))
        (some (some ⟨2024, 1, 1⟩))).1 ∧
    "2024-01-01" ∈ (summaryHandler stMalformed (some (some ⟨2024, 1, 1⟩))
        (some (some ⟨2024, 1, 1⟩))).2 ∧
    trendsHandler stMalformed (some (some ⟨2024, 1, 1⟩))
        (some (some ⟨2024, 1, 1⟩)) = .internalError ∧
    scatterHandler stMalformed (some "2024-01-01") = .internalError ∧
    apisHandler stMalformed (some "2024-01-01") = .internalError := by
  have h := c2_amended_malformed_recovery
  have hcm : stMalformed.cov "2024-01-01" = .malformed := by decide
  have hd : "2024-01-01" ∈ rangeKeys ⟨2024, 1, 1⟩ ⟨2024, 1, 1⟩ := by decide
  exact ⟨h.1 stMalformed ⟨2024, 1, 1⟩ ⟨2024, 1, 1⟩,
    h.2.1 stMalformed "2024-01-01" ⟨2024, 1, 1⟩ ⟨2024, 1, 1⟩ hcm,
    h.2.2.2.1 stMalformed "2024-01-01" ⟨2024, 1, 1⟩ ⟨2024, 1, 1⟩ (.inl hcm) hd,
    h.2.2.2.2.1 stMalformed "2024-01-01" ⟨2024, 1, 1⟩ ⟨2024, 1, 1⟩ hcm hd,
    (h.2.2.2.2.2 stMalformed "2024-01-01" (.inl hcm)).1,
    (h.2.2.2.2.2 stMalformed "2024-01-01" (.inl hcm)).2⟩

/-- C5 counterexample: a usage record whose `usage_count` is non-numeric.  In
ApiTable and CoverageUsage the count is coerced by bare `Number(...)`, so the
resulting usage field is `NaN`, not the claimed 0 (and `NaN` is not a
non-negative integer). -/
theorem c5_counterexample_nonnumeric_count_is_nan :
    scatterHandler stNonNum (some "2024-01-05") = .ok [⟨"A", .num 50, .nan⟩] ∧
    apisHandler stNonNum (some "2024-01-05") =
      .ok [⟨"A", .num 50, .nan, .num 3, "docA", 100, 50⟩] ∧
    JsNum.nan ≠ .num 0 := by
  refine ⟨?_, ?_, by decide⟩
  · simp +decide [scatterHandler, stNonNum, covContent, useContent, findUsage,
      List.find?, jsNumberOf]
    norm_num [covPercent, jsMul100, jsDiv]
  · simp +decide [apisHandler, stNonNum, covContent, useContent, apiRowOf,
      findUsage, List.find?, jsNumberOf]
    norm_num [covPercent, jsMul100, jsDiv, toFixed1]

/-- C5 amended: in all three operations that read usage counts the lookup takes
the first record matching the name, and a missing record yields 0; but the
coercion of a matched record's count differs: Summary applies
`parseInt(…,10) || 0` (an integer; non-numeric falls back to 0, negative values
are kept), while CoverageUsage and ApiTable apply bare `Number(…)` with no
fallback, so a non-numeric count flows through as `NaN`. -/
theorem c5_amended_usage_lookup :
    (∀ (st : Store) (d name : String) (r : CoverageRecord) (u : UsageRecord)
        (rest : UsageList),
        st.cov d = .good [(name, r)] → st.use d = .good (u :: rest) →
        u.api_name = name →
        scatterHandler st (some d) =
          .ok [⟨name, covPercent r, jsNumberOf u.usage_count⟩] ∧
        apisHandler st (some d) =
          .ok [⟨name, toFixed1 (covPercent r), jsNumberOf u.usage_count,
            jsNumberOf u.total_clients, r.apidoc, r.full_size, r.covered_lines⟩]) ∧
    (∀ (st : Store) (d name : String) (r : CoverageRecord) (l : UsageList),
        st.cov d = .good [(name, r)] → st.use d = .good l →
        (∀ u ∈ l, u.api_name ≠ name) →
        scatterHandler st (some d) = .ok [⟨name, covPercent r, .num 0⟩] ∧
        apisHandler st (some d) =
          .ok [⟨name, toFixed1 (covPercent r), .num 0, .num 0,
            r.apidoc, r.full_size, r.covered_lines⟩]) ∧
    (∀ (name : String) (r : CoverageRecord) (u : UsageRecord) (rest : UsageList),
        u.api_name = name →
        (calculateSummary [[(name, r)]] [u :: rest]).totalCalls =
          parseIntOr0 u.usage_count) ∧
    (∀ (name : String) (r : CoverageRecord),
        (calculateSummary [[(name, r)]] [[]]).totalCalls = 0) := by
  refine ⟨?_, ?_, ?_, ?_⟩
  · intro st d name r u rest hc hu hn
    have hf : findUsage (u :: rest) name = some u := by
      simp [findUsage, List.find?_cons_of_pos, hn]
    constructor
    · simp [scatterHandler, hc, hu, covContent, useContent, hf]
    · simp [apisHandler, hc, hu, covContent, useContent, apiRowOf, hf]
  · intro st d name r l hc hu hnone
    have hf : findUsage l name = none := by
      rw [findUsage, List.find?_eq_none]
      intro u hu2
      simpa using hnone u hu2
    constructor
    · simp [scatterHandler, hc, hu, covContent, useContent, hf]
    · simp [apisHandler, hc, hu, covContent, useContent, apiRowOf, hf]
  · intro name r u rest hn
    have hf : findUsage (u :: rest) name = some u := by
      simp [findUsage, List.find?_cons_of_pos, hn]
    have hg : objGet [(name, r)] name = some r := by
      simp [objGet, List.find?_cons_of_pos]
    simp [calculateSummary, collectApiNames, objKeys, addName, summaryDayStep,
      List.range_succ, hg, hf]
  · intro name r
    have hg : objGet [(name, r)] name = some r := by
      simp [objGet, List.find?_cons_of_pos]
    simp [calculateSummary, collectApiNames, objKeys, addName, summaryDayStep,
      List.range_succ, hg, findUsage]

/-- C5 amended witness: the conjuncts instantiated on `stNonNum` (first-match
with a non-numeric count) and on an empty usage file. -/
theorem c5_amended_usage_lookup_witness :
    scatterHandler stNonNum (some "2024-01-05") =
      .ok [⟨"A", covPercent ⟨100, 50, "docA"⟩, jsNumberOf .nonNum⟩] ∧
    (calculateSummary [[("A", ⟨100, 50, "docA"⟩)]]
      [[⟨"A", .nonNum, .intVal 3⟩]]).totalCalls = parseIntOr0 .nonNum ∧
    (calculateSummary [[("B", ⟨10, 5, "docB"⟩)]] [[]]).totalCalls = 0 := by
  have h := c5_amended_usage_lookup
  refine ⟨(h.1 stNonNum "2024-01-05" "A" ⟨100, 50, "docA"⟩ ⟨"A", .nonNum, .intVal 3⟩ []
      (by simp +decide [stNonNum]) (by simp +decide [stNonNum]) rfl).1,
    h.2.2.1 "A" ⟨100, 50, "docA"⟩ ⟨"A", .nonNum, .intVal 3⟩ [] rfl,
    h.2.2.2 "B" ⟨10, 5, "docB"⟩⟩

/-- C6 counterexample: a request whose start endpoint fails to parse is answered
with the generic 500 response — exactly the same `internalError` a non-date
internal failure (here: a malformed file aborting CoverageTrends) produces, not
a distinguishable `InvalidDateError` rejection.  (`generateDateRange` *returns*
an `Error` object; `for (const date of inRange)` then throws `TypeError`, and
the outer `catch` maps it to the same 500 as any other failure.) -/
theorem c6_counterexample_invalid_date_generic_500 :
    summaryHandler stEmpty (some none) (some (some ⟨2024, 1, 2⟩)) =
      (.internalError, []) ∧
    trendsHandler stMalformed (some (some ⟨2024, 1, 1⟩))
      (some (some ⟨2024, 1, 1⟩)) = .internalError := by
  constructor
  · rfl
  · have hgen : generateDateRange (some (⟨2024, 1, 1⟩ : Date)) (some ⟨2024, 1, 1⟩) =
        .ok (rangeKeys ⟨2024, 1, 1⟩ ⟨2024, 1, 1⟩) := rfl
    have h2 : trendsOfDays stMalformed (rangeKeys ⟨2024, 1, 1⟩ ⟨2024, 1, 1⟩) =
        Except.error () :=
      trendsOfDays_go_error stMalformed _ "2024-01-01" (by decide) (by decide) []
    simp only [trendsHandler, hgen, h2]

/-- C6 amended: a request with an unparseable start or end date is rejected
before any snapshot I/O — the response is the same for every store, so no
resource is consulted — but it is surfaced as the generic internal failure
(HTTP 500), the same constructor as any other unexpected error, not as a
distinct `InvalidDateError`; it remains distinguishable from a
successful-but-empty result (second conjunct). -/
theorem c6_amended_invalid_date_rejected_as_500 :
    (∀ (st : Store) (a b : Option Date), a = none ∨ b = none →
      summaryHandler st (some a) (some b) = (.internalError, []) ∧
      trendsHandler st (some a) (some b) = .internalError) ∧
    (.internalError : Resp SummaryOut) ≠ .ok ⟨0, .num 0, 0⟩ := by
  refine ⟨?_, by decide⟩
  intro st a b h
  have hgen : generateDateRange a b = .error "Invalid start or end date" := by
    rcases h with rfl | rfl
    · cases b <;> rfl
    · cases a <;> rfl
  exact ⟨by simp only [summaryHandler, hgen], by simp only [trendsHandler, hgen]⟩

/-- C6 amended witness: the rejection instantiated at a concrete unparseable
start endpoint, on two different stores, with identical responses. -/
theorem c6_amended_invalid_date_rejected_as_500_witness :
    summaryHandler stEmpty (some none) (some (some ⟨2024, 1, 2⟩)) =
      (.internalError, []) ∧
    summaryHandler stScenario (some none) (some (some ⟨2024, 1, 2⟩)) =
      (.internalError, []) ∧
    trendsHandler stScenario (some none) (some (some ⟨2024, 1, 2⟩)) =
      .internalError := by
  have h := c6_amended_invalid_date_rejected_as_500.1
  exact ⟨(h stEmpty none (some ⟨2024, 1, 2⟩) (.inl rfl)).1,
    (h stScenario none (some ⟨2024, 1, 2⟩) (.inl rfl)).1,
    (h stScenario none (some ⟨2024, 1, 2⟩) (.inl rfl)).2⟩

/-! ## Calendar arithmetic (towards C3) -/

theorem isLeap_iff (y : ℕ) :
    isLeap y = true ↔ (y % 4 = 0 ∧ y % 100 ≠ 0) ∨ y % 400 = 0 := by
  simp [isLeap, Bool.or_eq_true, Bool.and_eq_true, beq_iff_eq, bne_iff_ne]

theorem daysBeforeYear_succ (y : ℕ) (h : 1 ≤ y) :
    daysBeforeYear (y + 1) = daysBeforeYear y + 365 + (if isLeap y then 1 else 0) := by
  unfold daysBeforeYear
  simp only [Nat.add_sub_cancel]
  cases hl : isLeap y with
  | true =>
    have hc : (y % 4 = 0 ∧ y % 100 ≠ 0) ∨ y % 400 = 0 := (isLeap_iff y).mp hl
    simp only [if_true]
    omega
  | false =>
    have hc : ¬ ((y % 4 = 0 ∧ y % 100 ≠ 0) ∨ y % 400 = 0) := by
      rw [← isLeap_iff, hl]
      simp
    push_neg at hc
    simp only [Bool.false_eq_true, if_false]
    omega

theorem daysBeforeYear_mono {a b : ℕ} (h1 : 1 ≤ a) (h : a ≤ b) :
    daysBeforeYear a ≤ daysBeforeYear b := by
  induction b, h using Nat.le_induction with
  | base => exact le_refl _
  | succ n hn ih =>
    calc daysBeforeYear a ≤ daysBeforeYear n := ih
      _ ≤ daysBeforeYear (n + 1) := by
          rw [daysBeforeYear_succ n (le_trans h1 hn)]
          omega

theorem daysBeforeMonth_succ (y m : ℕ) (h1 : 1 ≤ m) (h2 : m ≤ 11) :
    daysBeforeMonth y (m + 1) = daysBeforeMonth y m + daysInMonth y m := by
  interval_cases m <;> cases hl : isLeap y <;> simp [daysBeforeMonth, daysInMonth, hl]

theorem daysBeforeMonth_last (y : ℕ) :
    daysBeforeMonth y 12 + daysInMonth y 12 = 365 + (if isLeap y then 1 else 0) := by
  cases hl : isLeap y <;> simp [daysBeforeMonth, daysInMonth, hl]

theorem daysBeforeMonth_mono (y : ℕ) {a b : ℕ} (h1 : 1 ≤ a) (h : a ≤ b)
    (h2 : b ≤ 12) : daysBeforeMonth y a ≤ daysBeforeMonth y b := by
  induction b, h using Nat.le_induction with
  | base => exact le_refl _
  | succ n hn ih =>
    calc daysBeforeMonth y a ≤ daysBeforeMonth y n := ih (by omega)
      _ ≤ daysBeforeMonth y n + daysInMonth y n := Nat.le_add_right _ _
      _ = daysBeforeMonth y (n + 1) :=
          (daysBeforeMonth_succ y n (by omega) (by omega)).symm

theorem offset_le_daysInYear (y m d : ℕ) (h1 : 1 ≤ m) (h2 : m ≤ 12)
    (hd : d ≤ daysInMonth y m) :
    daysBeforeMonth y m + d ≤ 365 + (if isLeap y then 1 else 0) := by
  interval_cases m <;> cases hl : isLeap y <;>
    simp_all [daysBeforeMonth, daysInMonth, hl] <;> omega

theorem daysInMonth_pos (y m : ℕ) : 1 ≤ daysInMonth y m := by
  unfold daysInMonth
  split <;> first | omega | (split <;> omega)

theorem daysInMonth_le_31 (y m : ℕ) : daysInMonth y m ≤ 31 := by
  unfold daysInMonth
  split <;> first | omega | (split <;> omega)

theorem toOrdinal_nextDay (d : Date) (h : ValidDate d) :
    toOrdinal (nextDay d) = toOrdinal d + 1 := by
  obtain ⟨h1, h2, h3, h4, h5, h6⟩ := h
  unfold nextDay
  by_cases hd : d.day < daysInMonth d.year d.month
  · rw [if_pos hd]
    unfold toOrdinal
    dsimp only
    omega
  · rw [if_neg hd]
    have hdd : d.day = daysInMonth d.year d.month := le_antisymm h6 (not_lt.mp hd)
    by_cases hm : d.month < 12
    · rw [if_pos hm]
      have hstep := daysBeforeMonth_succ d.year d.month h3 (by omega)
      unfold toOrdinal
      dsimp only
      omega
    · rw [if_neg hm]
      have hm12 : d.month = 12 := by omega
      unfold toOrdinal
      dsimp only
      rw [hm12] at hdd ⊢
      have hlast := daysBeforeMonth_last d.year
      have hsucc := daysBeforeYear_succ d.year h1
      have hbm1 : daysBeforeMonth (d.year + 1) 1 = 0 := rfl
      have hd31 : daysInMonth d.year 12 = 31 := rfl
      rw [hbm1, hd31] at *
      generalize (if isLeap d.year then 1 else 0) = L at hlast hsucc
      omega

theorem toOrdinal_le_max (d : Date) (h : ValidDate d) :
    toOrdinal d ≤ toOrdinal ⟨9999, 12, 31⟩ := by
  obtain ⟨h1, h2, h3, h4, h5, h6⟩ := h
  have hoff := offset_le_daysInYear d.year d.month d.day h3 h4 h6
  have hsucc := daysBeforeYear_succ d.year h1
  have hmono : daysBeforeYear (d.year + 1) ≤ daysBeforeYear 10000 :=
    daysBeforeYear_mono (by omega) (by omega)
  have hmax : toOrdinal ⟨9999, 12, 31⟩ = daysBeforeYear 10000 := by decide
  rw [hmax]
  unfold toOrdinal
  generalize (if isLeap d.year then 1 else 0) = L at hoff hsucc
  omega

theorem nextDay_valid (d e : Date) (hd : ValidDate d) (he : ValidDate e)
    (hlt : toOrdinal d < toOrdinal e) : ValidDate (nextDay d) := by
  obtain ⟨h1, h2, h3, h4, h5, h6⟩ := hd
  unfold nextDay
  by_cases hday : d.day < daysInMonth d.year d.month
  · rw [if_pos hday]
    unfold ValidDate
    dsimp only
    omega
  · rw [if_neg hday]
    by_cases hm : d.month < 12
    · rw [if_pos hm]
      have hpos := daysInMonth_pos d.year (d.month + 1)
      unfold ValidDate
      dsimp only
      omega
    · rw [if_neg hm]
      have hm12 : d.month = 12 := by omega
      have hy : d.year ≠ 9999 := by
        intro hy9
        have hd31 : daysInMonth d.year d.month = 31 := by rw [hm12]; rfl
        have hdd : d.day = 31 := by omega
        have hdeq : d = ⟨9999, 12, 31⟩ := by
          cases d
          simp_all
        have hle := toOrdinal_le_max e he
        rw [← hdeq] at hle
        omega
      have hpos := daysInMonth_pos (d.year + 1) 1
      unfold ValidDate
      dsimp only
      omega

theorem rangeLoop_spec (fuel : ℕ) : ∀ (d e : Date), ValidDate d → ValidDate e →
    toOrdinal d ≤ toOrdinal e → fuel = toOrdinal e + 1 - toOrdinal d →
    ∃ ds : List Date, rangeLoop fuel d e = ds.map toKeyString ∧
      ds.length = toOrdinal e - toOrdinal d + 1 ∧
      (∀ x ∈ ds, ValidDate x ∧ toOrdinal d ≤ toOrdinal x ∧ toOrdinal x ≤ toOrdinal e) ∧
      ds.Pairwise (fun a b => toOrdinal a < toOrdinal b) := by
  induction fuel with
  | zero =>
    intro d e _ _ hle hf
    exact absurd hf (by omega)
  | succ n ih =>
    intro d e hd he hle hf
    simp only [rangeLoop, if_pos hle]
    by_cases heq : toOrdinal d = toOrdinal e
    · have hn : n = 0 := by omega
      subst hn
      refine ⟨[d], by simp [rangeLoop], by simp; omega, ?_, by simp⟩
      intro x hx
      simp only [List.mem_singleton] at hx
      subst hx
      exact ⟨hd, le_refl _, hle⟩
    · have hlt : toOrdinal d < toOrdinal e := lt_of_le_of_ne hle heq
      have hnv : ValidDate (nextDay d) := nextDay_valid d e hd he hlt
      have hord : toOrdinal (nextDay d) = toOrdinal d + 1 := toOrdinal_nextDay d hd
      obtain ⟨ds, hds1, hds2, hds3, hds4⟩ := ih (nextDay d) e hnv he (by omega) (by omega)
      refine ⟨d :: ds, by simp [hds1], by simp [hds2]; omega, ?_, ?_⟩
      · intro x hx
        rcases List.mem_cons.mp hx with rfl | hx
        · exact ⟨hd, le_refl _, hle⟩
        · obtain ⟨hv, hl2, hr2⟩ := hds3 x hx
          exact ⟨hv, by omega, hr2⟩
      · rw [List.pairwise_cons]
        refine ⟨fun x hx => ?_, hds4⟩
        have := (hds3 x hx).2.1
        omega

/-! ## Day-key strings are ordered like their dates (towards C3) -/

theorem digitsBE_length (w : ℕ) : ∀ k, (digitsBE w k).length = w := by
  induction w with
  | zero => intro k; rfl
  | succ w ih => intro k; simp [digitsBE, ih]

theorem digitChar_lt_digitChar (a b : ℕ) (hb : b < 10) (h : a < b) :
    Nat.digitChar a < Nat.digitChar b := by
  have hfin : ∀ x y : Fin 10, x.val < y.val →
      Nat.digitChar x.val < Nat.digitChar y.val := by decide
  exact hfin ⟨a, by omega⟩ ⟨b, hb⟩ h

theorem charList_lt_append (as : List Char) : ∀ (bs cs ds : List Char),
    as.length = bs.length → as < bs → (as ++ cs) < (bs ++ ds) := by
  induction as with
  | nil =>
    intro bs cs ds hlen h
    cases bs with
    | nil => cases h
    | cons y ys => simp at hlen
  | cons x xs ih =>
    intro bs cs ds hlen h
    cases bs with
    | nil => simp at hlen
    | cons y ys =>
      cases h with
      | cons h3 => exact List.Lex.cons (ih ys cs ds (by simpa using hlen) h3)
      | rel hxy => exact List.Lex.rel hxy

theorem charList_lt_extend (xs : List Char) : ∀ (cs ds : List Char),
    cs < ds → (xs ++ cs) < (xs ++ ds) := by
  induction xs with
  | nil => intro cs ds h; exact h
  | cons x xs ih =>
    intro cs ds h
    exact List.Lex.cons (ih cs ds h)

theorem charList_lt_under (xs : List Char) (c : Char) (R S : List Char)
    (h : R < S) : (xs ++ c :: R) < (xs ++ c :: S) := by
  have := charList_lt_extend (xs ++ [c]) R S h
  simpa [List.append_assoc] using this

theorem digitsBE_map_lt (w : ℕ) : ∀ k1 k2, k1 < k2 → k2 < 10 ^ w →
    (digitsBE w k1).map Nat.digitChar < (digitsBE w k2).map Nat.digitChar := by
  induction w with
  | zero =>
    intro k1 k2 h hb
    simp at hb
    omega
  | succ w ih =>
    intro k1 k2 h hb
    simp only [digitsBE, List.map_append, List.map_cons, List.map_nil]
    rcases Nat.lt_trichotomy (k1 / 10) (k2 / 10) with hq | hq | hq
    · apply charList_lt_append
      · simp [digitsBE_length]
      · refine ih _ _ hq ?_
        rw [Nat.div_lt_iff_lt_mul (by norm_num : (0 : ℕ) < 10), ← pow_succ]
        exact hb
    · rw [hq]
      apply charList_lt_extend
      have hm : k1 % 10 < k2 % 10 := by omega
      exact List.Lex.rel (digitChar_lt_digitChar _ _ (by omega) hm)
    · have hle : k1 / 10 ≤ k2 / 10 := Nat.div_le_div_right (Nat.le_of_lt h)
      omega

theorem padChars_length (w k : ℕ) : (padChars w k).length = w := by
  simp [padChars, digitsBE_length]

theorem toKeyString_lt_of_lex (a b : Date)
    (hb4 : b.year < 10000) (hbm : b.month < 100) (hbd : b.day < 100)
    (h : a.year < b.year ∨ a.year = b.year ∧
      (a.month < b.month ∨ a.month = b.month ∧ a.day < b.day)) :
    toKeyString a < toKeyString b := by
  rw [String.lt_iff_toList_lt]
  show (padChars 4 a.year ++ '-' :: padChars 2 a.month ++ '-' :: padChars 2 a.day) <
    (padChars 4 b.year ++ '-' :: padChars 2 b.month ++ '-' :: padChars 2 b.day)
  rcases h with hy | ⟨hy, hm | ⟨hm, hd⟩⟩
  · exact charList_lt_append (padChars 4 a.year) (padChars 4 b.year)
      ('-' :: padChars 2 a.month ++ '-' :: padChars 2 a.day)
      ('-' :: padChars 2 b.month ++ '-' :: padChars 2 b.day)
      (by simp [padChars_length]) (digitsBE_map_lt 4 a.year b.year hy hb4)
  · rw [hy]
    exact charList_lt_under (padChars 4 b.year) '-'
      (padChars 2 a.month ++ '-' :: padChars 2 a.day)
      (padChars 2 b.month ++ '-' :: padChars 2 b.day)
      (charList_lt_append (padChars 2 a.month) (padChars 2 b.month)
        ('-' :: padChars 2 a.day) ('-' :: padChars 2 b.day)
        (by simp [padChars_length]) (digitsBE_map_lt 2 a.month b.month hm hbm))
  · rw [hy, hm]
    exact charList_lt_under (padChars 4 b.year) '-'
      (padChars 2 b.month ++ '-' :: padChars 2 a.day)
      (padChars 2 b.month ++ '-' :: padChars 2 b.day)
      (charList_lt_under (padChars 2 b.month) '-' (padChars 2 a.day)
        (padChars 2 b.day) (digitsBE_map_lt 2 a.day b.day hd hbd))

theorem ord_lt_of_lex (a b : Date) (ha : ValidDate a) (hb : ValidDate b)
    (h : a.year < b.year ∨ a.year = b.year ∧
      (a.month < b.month ∨ a.month = b.month ∧ a.day < b.day)) :
    toOrdinal a < toOrdinal b := by
  obtain ⟨a1, a2, a3, a4, a5, a6⟩ := ha
  obtain ⟨b1, b2, b3, b4, b5, b6⟩ := hb
  rcases h with hy | ⟨hy, hm | ⟨hm, hd⟩⟩
  · have hoff := offset_le_daysInYear a.year a.month a.day a3 a4 a6
    have hsucc := daysBeforeYear_succ a.year a1
    have hmono : daysBeforeYear (a.year + 1) ≤ daysBeforeYear b.year :=
      daysBeforeYear_mono (by omega) (by omega)
    unfold toOrdinal
    have hbm0 : 0 ≤ daysBeforeMonth b.year b.month := Nat.zero_le _
    generalize (if isLeap a.year then 1 else 0) = L at hoff hsucc
    omega
  · unfold toOrdinal
    rw [hy] at a6 ⊢
    have hstep := daysBeforeMonth_succ b.year a.month a3 (by omega)
    have hmono := @daysBeforeMonth_mono b.year (a.month + 1) b.month
      (by omega) (by omega) b4
    omega
  · unfold toOrdinal
    rw [hy, hm]
    omega

theorem lex_of_ord_lt (a b : Date) (ha : ValidDate a) (hb : ValidDate b)
    (h : toOrdinal a < toOrdinal b) :
    a.year < b.year ∨ a.year = b.year ∧
      (a.month < b.month ∨ a.month = b.month ∧ a.day < b.day) := by
  rcases Nat.lt_trichotomy a.year b.year with hy | hy | hy
  · exact .inl hy
  · rcases Nat.lt_trichotomy a.month b.month with hm | hm | hm
    · exact .inr ⟨hy, .inl hm⟩
    · rcases Nat.lt_trichotomy a.day b.day with hd | hd | hd
      · exact .inr ⟨hy, .inr ⟨hm, hd⟩⟩
      · exfalso
        have hab : a = b := by
          cases a
          cases b
          simp_all
        rw [hab] at h
        omega
      · exfalso
        have := ord_lt_of_lex b a hb ha (.inr ⟨hy.symm, .inr ⟨hm.symm, hd⟩⟩)
        omega
    · exfalso
      have := ord_lt_of_lex b a hb ha (.inr ⟨hy.symm, .inl hm⟩)
      omega
  · exfalso
    have := ord_lt_of_lex b a hb ha (.inl hy)
    omega

theorem toKeyString_lt (a b : Date) (ha : ValidDate a) (hb : ValidDate b)
    (h : toOrdinal a < toOrdinal b) : toKeyString a < toKeyString b := by
  have hlex := lex_of_ord_lt a b ha hb h
  obtain ⟨a1, a2, a3, a4, a5, a6⟩ := ha
  obtain ⟨b1, b2, b3, b4, b5, b6⟩ := hb
  have hbd := daysInMonth_le_31 b.year b.month
  exact toKeyString_lt_of_lex a b (by omega) (by omega) (by omega) hlex

/-- C3: for every valid pair of calendar dates with start ≤ end,
`generateDateRange` returns exactly (end − start in days) + 1 day-key strings,
strictly ascending (`Pairwise (· < ·)` in the lexicographic string order) and
duplicate-free, with exact month/year/leap rollover; in particular the range
`2024-02-28 .. 2024-03-01` yields `["2024-02-28", "2024-02-29", "2024-03-01"]`. -/
theorem c3_expand_count_ascending_rollover :
    (∀ s e : Date, ValidDate s → ValidDate e → toOrdinal s ≤ toOrdinal e →
      ∃ keys, generateDateRange (some s) (some e) = .ok keys ∧
        keys.length = (toOrdinal e - toOrdinal s) + 1 ∧
        keys.Pairwise (· < ·) ∧ keys.Nodup) ∧
    generateDateRange (some ⟨2024, 2, 28⟩) (some ⟨2024, 3, 1⟩) =
      .ok ["2024-02-28", "2024-02-29", "2024-03-01"] := by
  constructor
  · intro s e hs he hle
    obtain ⟨ds, h1, h2, h3, h4⟩ :=
      rangeLoop_spec (toOrdinal e + 1 - toOrdinal s) s e hs he hle rfl
    have hpw : ds.Pairwise (fun a b => toKeyString a < toKeyString b) :=
      h4.imp_of_mem fun hx hy hlt =>
        toKeyString_lt _ _ (h3 _ hx).1 (h3 _ hy).1 hlt
    have hpws : (ds.map toKeyString).Pairwise (· < ·) :=
      hpw.map toKeyString (fun a b h => h)
    refine ⟨ds.map toKeyString, ?_, ?_, hpws, ?_⟩
    · show Except.ok (rangeLoop (toOrdinal e + 1 - toOrdinal s) s e) = _
      rw [h1]
    · simp [h2]
    · exact hpws.imp fun h => ne_of_lt h
  · rfl

/-- C3 witness: a year-rollover range of four days, with ascending,
duplicate-free keys. -/
theorem c3_expand_count_ascending_rollover_witness :
    ∃ keys, generateDateRange (some ⟨2024, 12, 30⟩) (some ⟨2025, 1, 2⟩) =
        .ok keys ∧
      keys.length = 4 ∧ keys.Pairwise (· < ·) ∧ keys.Nodup := by
  obtain ⟨keys, h1, h2, h3, h4⟩ := c3_expand_count_ascending_rollover.1
    ⟨2024, 12, 30⟩ ⟨2025, 1, 2⟩ (by decide) (by decide) (by decide)
  refine ⟨keys, h1, ?_, h3, h4⟩
  rw [h2]
  decide

end ApiUsage
